import Mathlib

/-!
Shallow embedding of the MedAPP backend persistence/service layer:
`patient.service.ts`, `upload.service.ts`, the row types of
`database.types.ts`, and the check constraints of `supabase_schema.sql`.

Modelling conventions:
* TypeScript `undefined`/`null` optional fields become `Option` (which of the
  two JS absent-values a given `none` stands for is noted at each field).
* JS `Date` values / timestamps are opaque instants modelled as `Nat`
  milliseconds; the clock (`Date.now()`, `new Date()`) is passed in as a
  parameter, as are other environment effects (generated UUIDs, random
  suffixes, the success/failure answer of the external Supabase client).
* The managed Postgres table behind Supabase is modelled as a list of rows
  together with the relational statements the service issues against it;
  the Supabase single-row response shape `{ data, error }` is modelled
  explicitly so that the service's error handling can be stated exactly.
* Local disk and the storage bucket are finite maps from names to byte lists.
-/

namespace MedApp

/-- A PostgREST / Supabase client error (`error` field of a response). -/
structure DbError where
  code : String
  message : String
deriving DecidableEq, Repr

/-- Error object produced by `createError(message, statusCode)` in
`error.middleware.ts`: an `Error` carrying an HTTP status. -/
structure ServiceError where
  message : String
  status : Nat
deriving DecidableEq, Repr

/-- `createError` from `error.middleware.ts`. -/
def createError (message : String) (status : Nat) : ServiceError :=
  ⟨message, status⟩

/-- What a service method can throw: either a `createError` object or the
raw Supabase client error rethrown unchanged (`throw error`). -/
inductive AppError where
  | service (e : ServiceError)
  | client (e : DbError)
deriving DecidableEq, Repr

/-- App-side `Patient` shape (from `@shared/types`, reconstructed from its
use sites in `patient.service.ts`: `fromDbFormat` and `createPatient`).
`none` in `biopsyConfirmed`/`doctor` stands for JS `undefined`. -/
structure Patient where
  id : String
  name : String
  history : String
  date : String
  index : String
  biopsyConfirmed : Option Bool
  doctor : Option String
  createdAt : Nat
  updatedAt : Nat
deriving DecidableEq, Repr

/-- `PatientRow` from `database.types.ts` (a row of the `patients` table).
`rid` is the row's `id` UUID column; `none` stands for SQL `NULL`. -/
structure PatientRow where
  rid : String
  patient_id : String
  name : String
  history : String
  date : String
  index : String
  biopsy_confirmed : Option Bool
  doctor : Option String
  created_at : Nat
  updated_at : Nat
deriving DecidableEq, Repr

/-- `PatientInsert` from `database.types.ts`: the columns the service
supplies on insert (the database fills `id` and the timestamps). -/
structure PatientInsert where
  patient_id : String
  name : String
  history : String
  date : String
  index : String
  biopsy_confirmed : Option Bool
  doctor : Option String
deriving DecidableEq, Repr

/-- JS `x || fallback` on a `boolean | null | undefined` value where the
fallback is an absent value: only `true` survives, `false`/`null`/`undefined`
collapse to the absent value. -/
def jsOrBoolNone (x : Option Bool) : Option Bool :=
  match x with
  | some true => some true
  | _ => none

/-- JS `x || fallback` on a `string | null | undefined` value where the
fallback is an absent value: the empty string is falsy and collapses. -/
def jsOrStrNone (x : Option String) : Option String :=
  match x with
  | some s => if s = "" then none else some s
  | none => none

/-- JS `x || fallback` on a `string | undefined` value with a string
fallback, as in `data.name || existingPatient.name`. -/
def jsOrStr (x : Option String) (fallback : String) : String :=
  match x with
  | some s => if s = "" then fallback else s
  | none => fallback

/-- `fromDbFormat` of `patient.service.ts`: convert a Supabase row to the
app `Patient` shape. `row.biopsy_confirmed || undefined` and
`row.doctor || undefined` are JS truthiness tests. -/
def fromDbFormat (row : PatientRow) : Patient :=
  { id := row.patient_id
    name := row.name
    history := row.history
    date := row.date
    index := row.index
    biopsyConfirmed := jsOrBoolNone row.biopsy_confirmed
    doctor := jsOrStrNone row.doctor
    createdAt := row.created_at
    updatedAt := row.updated_at }

/-- `toDbFormat` of `patient.service.ts`: convert an app `Patient` to the
Supabase insert shape; `patient.biopsyConfirmed || null` and
`patient.doctor || null` are JS truthiness tests. -/
def toDbFormat (patient : Patient) : PatientInsert :=
  { patient_id := patient.id
    name := patient.name
    history := patient.history
    date := patient.date
    index := patient.index
    biopsy_confirmed := jsOrBoolNone patient.biopsyConfirmed
    doctor := jsOrStrNone patient.doctor }

/-- `CreatePatientRequest` (from `@shared/types`, reconstructed from its use
sites: `patientData.name`, `patientData.medicalHistory?.join(', ')`). -/
structure CreatePatientRequest where
  name : String
  medicalHistory : Option (List String)
deriving DecidableEq, Repr

/-- `UpdatePatientRequest` (from `@shared/types`, reconstructed from its use
sites in `updatePatient`: `id`, optional `name`, optional `medicalHistory`). -/
structure UpdatePatientRequest where
  id : String
  name : Option String
  medicalHistory : Option (List String)
deriving DecidableEq, Repr

/-! ## The in-memory store (`memoryPatients : Map<string, Patient>`)

A JS `Map` keyed by strings: an association list with unique keys, where
`set` replaces in place, `get` looks up, and `delete` reports whether the
key was present. -/

/-- `Map.get`. -/
def mapGet : List (String × Patient) → String → Option Patient
  | [], _ => none
  | (k', v') :: rest, k => if k' = k then some v' else mapGet rest k

/-- `Map.set` (replace the existing entry in place, else append). -/
def mapSet : List (String × Patient) → String → Patient → List (String × Patient)
  | [], k, v => [(k, v)]
  | (k', v') :: rest, k, v =>
    if k' = k then (k, v) :: rest else (k', v') :: mapSet rest k v

/-- `Map.delete`: the map after deletion, and whether the key was present. -/
def mapDelete : List (String × Patient) → String → List (String × Patient) × Bool
  | [], _ => ([], false)
  | (k', v') :: rest, k =>
    if k' = k then (rest, true)
    else
      let r := mapDelete rest k
      ((k', v') :: r.1, r.2)

/-! ## The `patients` table and the relational statements the service issues -/

/-- The state of the `patients` table. -/
structure DbState where
  rows : List PatientRow
deriving DecidableEq, Repr

/-- Rows matching `.eq('patient_id', id)`. -/
def rowsFor (db : DbState) (id : String) : List PatientRow :=
  db.rows.filter (fun r => r.patient_id = id)

/-- A Supabase single-row response `{ data, error }` as produced by
`.single()`. -/
structure DbSingleResp where
  data : Option PatientRow
  error : Option DbError
deriving DecidableEq, Repr

/-- A Supabase list response `{ data, error }` as produced by `.select('*')`
without `.single()`. -/
structure DbListResp where
  data : Option (List PatientRow)
  error : Option DbError
deriving DecidableEq, Repr

/-- `.single()` on a result set: exactly one row yields data, otherwise a
PGRST116 client error (this is how a missing row surfaces to the service). -/
def singleOf (l : List PatientRow) : DbSingleResp :=
  match l with
  | [r] => ⟨some r, none⟩
  | _ => ⟨none, some ⟨"PGRST116", "JSON object requested, multiple (or no) rows returned"⟩⟩

/-- The row the database stores for an insert: server-assigned UUID and
`created_at`/`updated_at` defaults of `NOW()`. -/
def rowOfInsert (ins : PatientInsert) (uuid : String) (now : Nat) : PatientRow :=
  { rid := uuid
    patient_id := ins.patient_id
    name := ins.name
    history := ins.history
    date := ins.date
    index := ins.index
    biopsy_confirmed := ins.biopsy_confirmed
    doctor := ins.doctor
    created_at := now
    updated_at := now }

/-- `insert(...).select('*').single()`: rejected with a unique-violation
error when `patient_id` already exists (UNIQUE constraint), else the new row
is appended and returned. -/
def dbInsert (db : DbState) (ins : PatientInsert) (uuid : String) (now : Nat) :
    DbState × DbSingleResp :=
  if rowsFor db ins.patient_id = [] then
    let r := rowOfInsert ins uuid now
    (⟨db.rows ++ [r]⟩, ⟨some r, none⟩)
  else
    (db, ⟨none, some ⟨"23505", "duplicate key value violates unique constraint"⟩⟩)

/-- The part of `PatientUpdate` the service ever populates (`name` and
`history`; the other optional columns of `PatientUpdate` are never set by
`updatePatient`). -/
structure PatientUpdatePayload where
  name : Option String
  history : Option String
deriving DecidableEq, Repr

/-- Applying an UPDATE payload to one row; the `update_updated_at_column`
trigger sets `updated_at = NOW()`. -/
def applyUpdate (r : PatientRow) (payload : PatientUpdatePayload) (now : Nat) : PatientRow :=
  { r with
    name := payload.name.getD r.name
    history := payload.history.getD r.history
    updated_at := now }

/-- `update(payload).eq('patient_id', id).select('*').single()`: matching
rows are rewritten in place and the rewritten matches are returned through
`.single()`. -/
def dbUpdate (db : DbState) (id : String) (payload : PatientUpdatePayload) (now : Nat) :
    DbState × DbSingleResp :=
  (⟨db.rows.map (fun r => if r.patient_id = id then applyUpdate r payload now else r)⟩,
   singleOf ((rowsFor db id).map (fun r => applyUpdate r payload now)))

/-- `delete().eq('patient_id', id).select('*').single()`: matching rows are
removed and the removed rows are returned through `.single()`. -/
def dbDelete (db : DbState) (id : String) : DbState × DbSingleResp :=
  (⟨db.rows.filter (fun r => ¬ r.patient_id = id)⟩, singleOf (rowsFor db id))

/-! ## PatientService -/

/-- `patientData.medicalHistory?.join(', ') || ''`. -/
def historyOfReq (medicalHistory : Option (List String)) : String :=
  match medicalHistory with
  | none => ""
  | some l => String.intercalate ", " l

/-- The `Patient` object built at the top of `createPatient`: `now` is the
single `Date.now()` read, `today` the `YYYY-MM-DD` string derived from the
same clock. -/
def mkNewPatient (req : CreatePatientRequest) (now : Nat) (today : String) : Patient :=
  { id := "patient-" ++ toString now
    name := req.name
    history := historyOfReq req.medicalHistory
    date := today
    index := toString now
    biopsyConfirmed := some false
    doctor := some "Unknown"
    createdAt := now
    updatedAt := now }

/-- NO_DB `getPatientById`: look up the map, 404 when absent. -/
def getPatientById_mem (mem : List (String × Patient)) (id : String) :
    Except AppError Patient :=
  match mapGet mem id with
  | none => .error (.service (createError "Patient not found" 404))
  | some p => .ok p

/-- NO_DB `createPatient`: build the patient and `set` it in the map. -/
def createPatient_mem (mem : List (String × Patient)) (req : CreatePatientRequest)
    (now : Nat) (today : String) : List (String × Patient) × Patient :=
  let p := mkNewPatient req now today
  (mapSet mem p.id p, p)

/-- NO_DB `updatePatient`: 404 when absent; otherwise spread the existing
patient, overriding `name` with `data.name || existingPatient.name`,
`history` with `data.medicalHistory?.join(', ') || existingPatient.history`,
and `updatedAt` with `new Date()`. -/
def updatePatient_mem (mem : List (String × Patient)) (upd : UpdatePatientRequest)
    (now : Nat) : List (String × Patient) × Except AppError Patient :=
  match mapGet mem upd.id with
  | none => (mem, .error (.service (createError "Patient not found" 404)))
  | some existing =>
    let updated : Patient :=
      { existing with
        name := jsOrStr upd.name existing.name
        history := jsOrStr (upd.medicalHistory.map (String.intercalate ", ")) existing.history
        updatedAt := now }
    (mapSet mem upd.id updated, .ok updated)

/-- NO_DB `deletePatient`: `Map.delete`, 404 when the key was absent. -/
def deletePatient_mem (mem : List (String × Patient)) (id : String) :
    List (String × Patient) × Except AppError Unit :=
  let r := mapDelete mem id
  if r.2 then (r.1, .ok ())
  else (r.1, .error (.service (createError "Patient not found" 404)))

/-- Database-mode `getAllPatients` response handling:
`if (error) throw error; return (data || []).map(fromDbFormat)`. -/
def getAllPatients_dbResp (resp : DbListResp) : Except AppError (List Patient) :=
  match resp.error with
  | some e => .error (.client e)
  | none => .ok ((resp.data.getD []).map fromDbFormat)

/-- Database-mode `getPatientById` response handling:
`if (error || !data) throw createError('Patient not found', 404)`. -/
def getPatientById_dbResp (resp : DbSingleResp) : Except AppError Patient :=
  match resp.error, resp.data with
  | none, some row => .ok (fromDbFormat row)
  | _, _ => .error (.service (createError "Patient not found" 404))

/-- Outcome of a JS call that may return, throw, or crash on a null
dereference (`fromDbFormat(data)` with `data === null`). -/
inductive JsOutcome (α : Type) where
  | ok (a : α)
  | thrown (e : AppError)
  | crash
deriving DecidableEq, Repr

/-- Database-mode `createPatient` response handling: `if (error) throw
error; return fromDbFormat(data)` — the raw client error is rethrown, and a
null `data` without an error would crash on the field access. -/
def createPatient_dbResp (resp : DbSingleResp) : JsOutcome Patient :=
  match resp.error with
  | some e => .thrown (.client e)
  | none =>
    match resp.data with
    | some row => .ok (fromDbFormat row)
    | none => .crash

/-- Database-mode `updatePatient` response handling:
`if (error || !updatedData) throw createError('Patient not found', 404)`. -/
def updatePatient_dbResp (resp : DbSingleResp) : Except AppError Patient :=
  match resp.error, resp.data with
  | none, some row => .ok (fromDbFormat row)
  | _, _ => .error (.service (createError "Patient not found" 404))

/-- Database-mode `deletePatient` response handling:
`if (error || !data) throw createError('Patient not found', 404)`. -/
def deletePatient_dbResp (resp : DbSingleResp) : Except AppError Unit :=
  match resp.error, resp.data with
  | none, some _ => .ok ()
  | _, _ => .error (.service (createError "Patient not found" 404))

/-- Database-mode `getPatientById` run against the modelled table. -/
def getPatientById_db (db : DbState) (id : String) : Except AppError Patient :=
  getPatientById_dbResp (singleOf (rowsFor db id))

/-- Database-mode `createPatient` run against the modelled table. -/
def createPatient_db (db : DbState) (req : CreatePatientRequest) (now : Nat)
    (today : String) (uuid : String) : DbState × JsOutcome Patient :=
  let p := mkNewPatient req now today
  let r := dbInsert db (toDbFormat p) uuid now
  (r.1, createPatient_dbResp r.2)

/-- The UPDATE payload `updatePatient` builds: `if (data.name)
updatePayload.name = data.name` (truthiness: an empty-string name is
dropped); `if (data.medicalHistory) updatePayload.history = join` (an array
is always truthy, even empty). -/
def mkUpdatePayload (upd : UpdatePatientRequest) : PatientUpdatePayload :=
  { name := jsOrStrNone upd.name
    history := upd.medicalHistory.map (String.intercalate ", ") }

/-- Database-mode `updatePatient` run against the modelled table. -/
def updatePatient_db (db : DbState) (upd : UpdatePatientRequest) (now : Nat) :
    DbState × Except AppError Patient :=
  let r := dbUpdate db upd.id (mkUpdatePayload upd) now
  (r.1, updatePatient_dbResp r.2)

/-- Database-mode `deletePatient` run against the modelled table. -/
def deletePatient_db (db : DbState) (id : String) :
    DbState × Except AppError Unit :=
  let r := dbDelete db id
  (r.1, deletePatient_dbResp r.2)

/-! ## UploadService (`upload.service.ts`)

Local disk and the storage bucket are finite maps from names to byte lists
(bytes as `Nat`s below 256, the contents of a Node `Buffer`). The outcome of
the external storage call (`error` of `upload`/`remove`) is a parameter. -/

/-- Local files: path ↦ bytes. -/
structure LocalFS where
  files : List (String × List Nat)
deriving DecidableEq, Repr

/-- The storage bucket: object name ↦ bytes, plus the log of `remove`
requests issued against it. -/
structure StorageState where
  objects : List (String × List Nat)
  removeRequests : List String
deriving DecidableEq, Repr

/-- Generic lookup in a name ↦ bytes list. -/
def assocGet : List (String × List Nat) → String → Option (List Nat)
  | [], _ => none
  | (k', v') :: rest, k => if k' = k then some v' else assocGet rest k

/-- Generic insert-or-replace in a name ↦ bytes list. -/
def assocSet : List (String × List Nat) → String → List Nat → List (String × List Nat)
  | [], k, v => [(k, v)]
  | (k', v') :: rest, k, v =>
    if k' = k then (k, v) :: rest else (k', v') :: assocSet rest k v

/-- `fs.existsSync`. -/
def fsExists (fs : LocalFS) (p : String) : Bool :=
  (assocGet fs.files p).isSome

/-- `fs.readFileSync` (`none` models the throw on a missing file). -/
def fsRead (fs : LocalFS) (p : String) : Option (List Nat) :=
  assocGet fs.files p

/-- `fs.writeFileSync`. -/
def fsWrite (fs : LocalFS) (p : String) (bytes : List Nat) : LocalFS :=
  ⟨assocSet fs.files p bytes⟩

/-- `fs.unlinkSync`. -/
def fsUnlink (fs : LocalFS) (p : String) : LocalFS :=
  ⟨fs.files.filter (fun f => ¬ f.1 = p)⟩

/-- The service's uploads directory (`path.join(__dirname, '../../uploads')`). -/
def uploadsDir : String := "uploads"

/-- `path.join(this.uploadsDir, filename)`. -/
def uploadsPath (filename : String) : String := uploadsDir ++ "/" ++ filename

/-- The bucket name constant. -/
def BUCKET_NAME : String := "oral_images"

/-- `getPublicUrl(filename).data.publicUrl`: deterministic in the object
name within the fixed bucket. -/
def publicUrl (filename : String) : String :=
  "https://supabase.example/storage/v1/object/public/" ++ BUCKET_NAME ++ "/" ++ filename

/-- An error thrown by the upload service (`new Error(message)`). -/
structure UploadError where
  message : String
deriving DecidableEq, Repr

/-- Express/Multer file metadata used by `processImage`. -/
structure MulterFile where
  filename : String
  size : Nat
deriving DecidableEq, Repr

/-- The `ProcessedImageResult` interface. -/
structure ProcessedImageResult where
  filename : String
  imageUrl : String
  filePath : String
  size : Nat
deriving DecidableEq, Repr

/-- `uploadToSupabase`: `upload(filename, buffer, { upsert: true })`; on a
client error throws `Failed to upload to Supabase: <msg>`, else returns the
public URL. `uploadErr` is the client's answer. -/
def uploadToSupabase (storage : StorageState) (filename : String) (buffer : List Nat)
    (uploadErr : Option DbError) : Except UploadError (StorageState × String) :=
  match uploadErr with
  | some e => .error ⟨"Failed to upload to Supabase: " ++ e.message⟩
  | none =>
    .ok (⟨assocSet storage.objects filename buffer, storage.removeRequests⟩,
         publicUrl filename)

/-- `processImage`: read the staged file's bytes, upload them under the same
filename, and return filename / public URL / local path / multer size; any
inner failure is caught and rethrown as `Failed to process image`. -/
def processImage (fs : LocalFS) (storage : StorageState) (file : MulterFile)
    (uploadErr : Option DbError) : StorageState × Except UploadError ProcessedImageResult :=
  match fsRead fs (uploadsPath file.filename) with
  | none => (storage, .error ⟨"Failed to process image"⟩)
  | some buffer =>
    match uploadToSupabase storage file.filename buffer uploadErr with
    | .error _ => (storage, .error ⟨"Failed to process image"⟩)
    | .ok (storage', url) =>
      (storage', .ok ⟨file.filename, url, uploadsPath file.filename, file.size⟩)

/-- `deleteImage`: unlink the local copy when it exists, then request
removal of the stored object; a storage-side error is only logged as a
warning (`removeErr` is the client's answer, and on an error the object is
conservatively left in place). -/
def deleteImage (fs : LocalFS) (storage : StorageState) (filename : String)
    (removeErr : Option DbError) : LocalFS × StorageState × Except UploadError Unit :=
  let p := uploadsPath filename
  let fs' := if fsExists fs p then fsUnlink fs p else fs
  let objects' :=
    match removeErr with
    | some _ => storage.objects
    | none => storage.objects.filter (fun f => ¬ f.1 = filename)
  (fs', ⟨objects', storage.removeRequests ++ [filename]⟩, .ok ())

/-! ### `saveBase64Image`: the data-URL regex and base64 decoding

The regex is `/^data:image\/([a-zA-Z]+);base64,(.+)$/` with no flags: `.`
matches any character except a line terminator, and `$` anchors at the very
end of the input. -/

/-- `[a-zA-Z]`. -/
def isAsciiLetter (c : Char) : Bool :=
  ('a' ≤ c && c ≤ 'z') || ('A' ≤ c && c ≤ 'Z')

/-- A JS regex line terminator (`\n`, `\r`, U+2028, U+2029), which `.` does
not match. -/
def isLineTerm (c : Char) : Bool :=
  c = '\n' || c = '\r' || c = Char.ofNat 0x2028 || c = Char.ofNat 0x2029

/-- Strip a literal leading character sequence, returning the remainder. -/
def stripLead : List Char → List Char → Option (List Char)
  | [], rest => some rest
  | _ :: _, [] => none
  | p :: ps, c :: cs => if c = p then stripLead ps cs else none

/-- The match of `/^data:image\/([a-zA-Z]+);base64,(.+)$/` on a string:
the extension capture and the payload capture, or `none` when the regex
does not match. -/
def matchDataUrl (s : String) : Option (String × String) :=
  match stripLead "data:image/".data s.data with
  | none => none
  | some rest =>
    if rest.takeWhile isAsciiLetter = [] then none
    else
      match stripLead ";base64,".data (rest.dropWhile isAsciiLetter) with
      | none => none
      | some payload =>
        if payload = [] then none
        else if payload.any isLineTerm then none
        else some (String.mk (rest.takeWhile isAsciiLetter), String.mk payload)

/-- The base64 value of a character, `none` for a non-alphabet character. -/
def b64charVal (c : Char) : Option Nat :=
  if 'A' ≤ c && c ≤ 'Z' then some (c.toNat - 'A'.toNat)
  else if 'a' ≤ c && c ≤ 'z' then some (c.toNat - 'a'.toNat + 26)
  else if '0' ≤ c && c ≤ '9' then some (c.toNat - '0'.toNat + 52)
  else if c = '+' then some 62
  else if c = '/' then some 63
  else none

/-- Node's forgiving base64 scan: invalid characters are skipped and `=`
terminates the payload. -/
def b64vals : List Char → List Nat
  | [] => []
  | c :: cs =>
    if c = '=' then []
    else
      match b64charVal c with
      | some v => v :: b64vals cs
      | none => b64vals cs

/-- Reassemble 6-bit groups into bytes; a trailing lone 6-bit group carries
fewer than 8 bits and yields no byte. -/
def b64bytes : List Nat → List Nat
  | a :: b :: c :: d :: rest =>
    (a * 4 + b / 16) :: ((b % 16) * 16 + c / 4) :: ((c % 4) * 64 + d) :: b64bytes rest
  | [a, b] => [a * 4 + b / 16]
  | [a, b, c] => [(a * 4 + b / 16), ((b % 16) * 16 + c / 4)]
  | _ => []

/-- `Buffer.from(payload, 'base64')`. -/
def b64decode (s : String) : List Nat :=
  b64bytes (b64vals s.data)

/-- The generated filename ``seg_${Date.now()}_${random}.${ext}`` (after the
`jpeg` → `jpg` rewrite). -/
def segFilename (now : Nat) (rnd : String) (ext : String) : String :=
  "seg_" ++ toString now ++ "_" ++ rnd ++ "." ++ (if ext = "jpeg" then "jpg" else ext)

/-- `saveBase64Image`: match the data-URL regex (throwing when it fails),
decode the payload, write the bytes locally under a generated name, upload
the same bytes, and return the result; every inner failure is caught and
rethrown as `Failed to save base64 image`. -/
def saveBase64Image (fs : LocalFS) (storage : StorageState) (base64Data : String)
    (now : Nat) (rnd : String) (uploadErr : Option DbError) :
    LocalFS × StorageState × Except UploadError ProcessedImageResult :=
  match matchDataUrl base64Data with
  | none => (fs, storage, .error ⟨"Failed to save base64 image"⟩)
  | some (ext, payload) =>
    let buffer := b64decode payload
    let filename := segFilename now rnd ext
    let fp := uploadsPath filename
    let fs' := fsWrite fs fp buffer
    match uploadToSupabase storage filename buffer uploadErr with
    | .error _ => (fs', storage, .error ⟨"Failed to save base64 image"⟩)
    | .ok (storage', url) => (fs', storage', .ok ⟨filename, url, fp, buffer.length⟩)

/-! ## The `diagnoses` table and its check constraints
(`supabase_schema.sql`, row shape `DiagnosisRow` of `database.types.ts`).
DECIMAL values are modelled as rationals. -/

/-- `diagnosis_type` enum. -/
inductive DiagnosisType where
  | gastritis
  | oral
deriving DecidableEq, Repr

/-- `severity_level` enum. -/
inductive SeverityLevel where
  | low
  | medium
  | high
deriving DecidableEq, Repr

/-- A YOLO detection element of the `detections` JSONB array. -/
structure Detection where
  class_name : String
  confidence : ℚ
  bbox : List ℚ
deriving DecidableEq, Repr

/-- A row of the `diagnoses` table (`DiagnosisRow` of `database.types.ts`);
`none` stands for SQL `NULL`. -/
structure DiagnosisRow where
  rid : String
  patient_id : String
  dtype : DiagnosisType
  image_url : String
  confidence : ℚ
  finding : String
  recommendation : String
  severity : Option SeverityLevel
  report_recommendation : Option String
  status_code : Option String
  olp_score : Option ℚ
  olk_score : Option ℚ
  ooml_score : Option ℚ
  opmd_score : Option ℚ
  knowledge : Option String
  annotated_image_url : Option String
  detections : Option (List Detection)
  created_at : Nat
  updated_at : Nat
deriving DecidableEq, Repr

/-- `CHECK (x IS NULL OR (x >= 0 AND x <= 1))`. -/
def optInUnit (x : Option ℚ) : Bool :=
  match x with
  | none => true
  | some q => decide (0 ≤ q) && decide (q ≤ 1)

/-- The conjunction of the five check constraints of the `diagnoses`
table: `confidence` in `[0,1]` and each named score `NULL` or in `[0,1]`. -/
def diagChecksOk (r : DiagnosisRow) : Bool :=
  decide (0 ≤ r.confidence) && decide (r.confidence ≤ 1) &&
  optInUnit r.olp_score && optInUnit r.olk_score &&
  optInUnit r.ooml_score && optInUnit r.opmd_score

/-- One accepted write against the `diagnoses` table: INSERT and UPDATE are
admitted only when the written row passes the check constraints (an
out-of-range write is rejected by the database and changes nothing), and
DELETE is unrestricted. -/
inductive DiagStep : List DiagnosisRow → List DiagnosisRow → Prop where
  | insert (db : List DiagnosisRow) (r : DiagnosisRow)
      (h : diagChecksOk r = true) : DiagStep db (r :: db)
  | update (l rest : List DiagnosisRow) (old new : DiagnosisRow)
      (h : diagChecksOk new = true) : DiagStep (l ++ old :: rest) (l ++ new :: rest)
  | delete (l rest : List DiagnosisRow) (old : DiagnosisRow) :
      DiagStep (l ++ old :: rest) (l ++ rest)

/-- Table states reachable from the freshly created (empty) table through
accepted writes. -/
inductive DiagReachable : List DiagnosisRow → Prop where
  | empty : DiagReachable []
  | step {db db' : List DiagnosisRow} :
      DiagReachable db → DiagStep db db' → DiagReachable db'

/-! ## Shared lemmas about the modelled stores -/

theorem mapGet_mapSet_self (m : List (String × Patient)) (k : String) (v : Patient) :
    mapGet (mapSet m k v) k = some v := by
  induction m with
  | nil => simp [mapSet, mapGet]
  | cons hd tl ih =>
    obtain ⟨k', v'⟩ := hd
    by_cases h : k' = k
    · simp [mapSet, mapGet, h]
    · simp [mapSet, mapGet, h, ih]

theorem mapDelete_of_get_none (m : List (String × Patient)) (k : String)
    (h : mapGet m k = none) : mapDelete m k = (m, false) := by
  induction m with
  | nil => simp [mapDelete]
  | cons hd tl ih =>
    obtain ⟨k', v'⟩ := hd
    by_cases hk : k' = k
    · simp [mapGet, hk] at h
    · simp [mapGet, hk] at h
      simp [mapDelete, hk, ih h]

theorem assocGet_assocSet_self (o : List (String × List Nat)) (k : String) (v : List Nat) :
    assocGet (assocSet o k v) k = some v := by
  induction o with
  | nil => simp [assocSet, assocGet]
  | cons hd tl ih =>
    obtain ⟨k', v'⟩ := hd
    by_cases h : k' = k
    · simp [assocSet, assocGet, h]
    · simp [assocSet, assocGet, h, ih]

theorem assocGet_filter_ne (o : List (String × List Nat)) (p : String) :
    assocGet (o.filter (fun f => ¬ f.1 = p)) p = none := by
  induction o with
  | nil => simp [assocGet]
  | cons hd tl ih =>
    obtain ⟨k', v'⟩ := hd
    by_cases h : k' = p
    · simpa [h] using ih
    · simpa [h, assocGet] using ih

/-! ## Claims -/

/-- C9: in database-less mode, `createPatient` derives both the identifier
`patient-<milliseconds>` and the `index` string from the single `Date.now()`
read, stores the patient in the process-wide map under that identifier, and
two creations at the same millisecond yield the same identifier, the later
insertion replacing the earlier patient in the map. -/
theorem C9_createPatient_mem_timestamp_id
    (mem : List (String × Patient)) (req₁ req₂ : CreatePatientRequest)
    (now : Nat) (today₁ today₂ : String) :
    (createPatient_mem mem req₁ now today₁).2.id = "patient-" ++ toString now ∧
    (createPatient_mem mem req₁ now today₁).2.index = toString now ∧
    mapGet (createPatient_mem mem req₁ now today₁).1 ("patient-" ++ toString now)
      = some (mkNewPatient req₁ now today₁) ∧
    (createPatient_mem (createPatient_mem mem req₁ now today₁).1 req₂ now today₂).2.id
      = (createPatient_mem mem req₁ now today₁).2.id ∧
    mapGet (createPatient_mem (createPatient_mem mem req₁ now today₁).1 req₂ now today₂).1
        ("patient-" ++ toString now)
      = some (mkNewPatient req₂ now today₂) := by
  refine ⟨rfl, rfl, ?_, rfl, ?_⟩
  · exact mapGet_mapSet_self ..
  · exact mapGet_mapSet_self ..

/-- C10: `fromDbFormat` and `toDbFormat` are mutually inverse on the
identifier, name, history, date and index fields, but not on the optional
fields: a `biopsyConfirmed = false` patient is stored with a NULL
`biopsy_confirmed`, a NULL `biopsy_confirmed` or `doctor` column comes back
as an absent field, and the `false` round-trips to absent. -/
theorem C10_db_format_round_trip (r : PatientRow) (p : Patient) (uuid : String) (now : Nat) :
    ((toDbFormat (fromDbFormat r)).patient_id = r.patient_id ∧
     (toDbFormat (fromDbFormat r)).name = r.name ∧
     (toDbFormat (fromDbFormat r)).history = r.history ∧
     (toDbFormat (fromDbFormat r)).date = r.date ∧
     (toDbFormat (fromDbFormat r)).index = r.index) ∧
    ((fromDbFormat (rowOfInsert (toDbFormat p) uuid now)).id = p.id ∧
     (fromDbFormat (rowOfInsert (toDbFormat p) uuid now)).name = p.name ∧
     (fromDbFormat (rowOfInsert (toDbFormat p) uuid now)).history = p.history ∧
     (fromDbFormat (rowOfInsert (toDbFormat p) uuid now)).date = p.date ∧
     (fromDbFormat (rowOfInsert (toDbFormat p) uuid now)).index = p.index) ∧
    (toDbFormat { p with biopsyConfirmed := some false }).biopsy_confirmed = none ∧
    (fromDbFormat { r with biopsy_confirmed := none }).biopsyConfirmed = none ∧
    (fromDbFormat { r with doctor := none }).doctor = none ∧
    (fromDbFormat (rowOfInsert (toDbFormat { p with biopsyConfirmed := some false })
        uuid now)).biopsyConfirmed = none := by
  exact ⟨⟨rfl, rfl, rfl, rfl, rfl⟩, ⟨rfl, rfl, rfl, rfl, rfl⟩, rfl, rfl, rfl, rfl⟩

/-- A concrete non-not-found client error: a connection failure. -/
def transportErr : DbError := ⟨"08006", "connection failure"⟩

/-- C1 counterexample: in database mode, `getPatientById`, `updatePatient`
and `deletePatient` faced with a transport error from the client do not
rethrow it; each replaces it with the 404 `Patient not found` error. -/
theorem C1_counterexample :
    getPatientById_dbResp ⟨none, some transportErr⟩
      = .error (.service (createError "Patient not found" 404)) ∧
    getPatientById_dbResp ⟨none, some transportErr⟩
      ≠ .error (.client transportErr) ∧
    updatePatient_dbResp ⟨none, some transportErr⟩
      = .error (.service (createError "Patient not found" 404)) ∧
    updatePatient_dbResp ⟨none, some transportErr⟩
      ≠ .error (.client transportErr) ∧
    deletePatient_dbResp ⟨none, some transportErr⟩
      = .error (.service (createError "Patient not found" 404)) ∧
    deletePatient_dbResp ⟨none, some transportErr⟩
      ≠ .error (.client transportErr) := by
  refine ⟨rfl, ?_, rfl, ?_, rfl, ?_⟩ <;> simp [getPatientById_dbResp,
    updatePatient_dbResp, deletePatient_dbResp, createError, transportErr]

/-- C1 amended: in database mode a missing row yields the 404 error, and
`getAllPatients` and `createPatient` rethrow a client error unchanged, but
`getPatientById`, `updatePatient` and `deletePatient` replace every client
error — not-found or transport alike — with the 404 `Patient not found`
error. -/
theorem C1_amended_db_error_handling (e : DbError) (d : Option PatientRow)
    (l : Option (List PatientRow)) :
    getAllPatients_dbResp ⟨l, some e⟩ = .error (.client e) ∧
    createPatient_dbResp ⟨d, some e⟩ = .thrown (.client e) ∧
    getPatientById_dbResp ⟨d, some e⟩
      = .error (.service (createError "Patient not found" 404)) ∧
    updatePatient_dbResp ⟨d, some e⟩
      = .error (.service (createError "Patient not found" 404)) ∧
    deletePatient_dbResp ⟨d, some e⟩
      = .error (.service (createError "Patient not found" 404)) ∧
    getPatientById_dbResp ⟨none, none⟩
      = .error (.service (createError "Patient not found" 404)) := by
  refine ⟨rfl, rfl, ?_, ?_, ?_, rfl⟩ <;> cases d <;> rfl

/-- C6: `deleteImage` always returns successfully — a storage-side removal
error is only logged — the removal request is always issued against the
bucket, and afterwards no local copy of the file remains in the uploads
directory. -/
theorem C6_deleteImage_tolerates_storage_failure
    (fs : LocalFS) (storage : StorageState) (filename : String)
    (removeErr : Option DbError) :
    (deleteImage fs storage filename removeErr).2.2 = .ok () ∧
    fsExists (deleteImage fs storage filename removeErr).1 (uploadsPath filename) = false ∧
    (deleteImage fs storage filename removeErr).2.1.removeRequests
      = storage.removeRequests ++ [filename] := by
  refine ⟨rfl, ?_, rfl⟩
  by_cases h : fsExists fs (uploadsPath filename)
  · have h' : (assocGet fs.files (uploadsPath filename)).isSome = true := h
    simp only [deleteImage, fsExists, fsUnlink, h', if_true]
    rw [assocGet_filter_ne]
    rfl
  · simp [deleteImage, h]

/-- UPDATE commutes with the `patient_id` filter: rewriting the matching
rows and then selecting them is selecting them and rewriting each. -/
theorem rowsFor_dbUpdate (rows : List PatientRow) (id : String)
    (payload : PatientUpdatePayload) (now : Nat) :
    (rows.map (fun r => if r.patient_id = id then applyUpdate r payload now else r)).filter
        (fun r => r.patient_id = id)
      = (rows.filter (fun r => r.patient_id = id)).map
          (fun r => applyUpdate r payload now) := by
  induction rows with
  | nil => simp
  | cons a tl ih =>
    by_cases hh : a.patient_id = id
    · have hpa : (applyUpdate a payload now).patient_id = a.patient_id := rfl
      simp [hh, hpa, ih]
    · simp [hh, ih]

/-- C2: creating a patient and then fetching by the returned identifier
succeeds and returns a patient equal (in every field) to the one returned
by `createPatient`, in the in-memory mode and, for a fresh identifier, in
the database mode. -/
theorem C2_create_then_get
    (mem : List (String × Patient)) (db : DbState) (req : CreatePatientRequest)
    (now : Nat) (today uuid : String) :
    (createPatient_mem mem req now today).2 = mkNewPatient req now today ∧
    getPatientById_mem (createPatient_mem mem req now today).1
        (mkNewPatient req now today).id = .ok (mkNewPatient req now today) ∧
    (rowsFor db ("patient-" ++ toString now) = [] →
      createPatient_db db req now today uuid
        = (⟨db.rows ++ [rowOfInsert (toDbFormat (mkNewPatient req now today)) uuid now]⟩,
           .ok (fromDbFormat (rowOfInsert (toDbFormat (mkNewPatient req now today)) uuid now))) ∧
      getPatientById_db
          ⟨db.rows ++ [rowOfInsert (toDbFormat (mkNewPatient req now today)) uuid now]⟩
          (fromDbFormat (rowOfInsert (toDbFormat (mkNewPatient req now today)) uuid now)).id
        = .ok (fromDbFormat (rowOfInsert (toDbFormat (mkNewPatient req now today)) uuid now))) := by
  refine ⟨rfl, ?_, fun h => ⟨?_, ?_⟩⟩
  · simp [getPatientById_mem, createPatient_mem, mapGet_mapSet_self]
  · have hpid : (toDbFormat (mkNewPatient req now today)).patient_id
        = "patient-" ++ toString now := rfl
    simp [createPatient_db, dbInsert, hpid, h, createPatient_dbResp]
  · have hid : (fromDbFormat (rowOfInsert (toDbFormat (mkNewPatient req now today)) uuid now)).id
        = "patient-" ++ toString now := rfl
    have hrow : (rowOfInsert (toDbFormat (mkNewPatient req now today)) uuid now).patient_id
        = "patient-" ++ toString now := rfl
    simp only [getPatientById_db, rowsFor, hid] at *
    simp [List.filter_append, h, hrow, singleOf, getPatientById_dbResp]

/-- C2 witness: a concrete creation in an empty store, in both modes. -/
theorem C2_create_then_get_witness :
    getPatientById_mem (createPatient_mem [] ⟨"Ann", none⟩ 7 "2024-01-01").1
        (mkNewPatient ⟨"Ann", none⟩ 7 "2024-01-01").id
      = .ok (mkNewPatient ⟨"Ann", none⟩ 7 "2024-01-01") ∧
    createPatient_db ⟨[]⟩ ⟨"Ann", none⟩ 7 "2024-01-01" "u1"
      = (⟨[rowOfInsert (toDbFormat (mkNewPatient ⟨"Ann", none⟩ 7 "2024-01-01")) "u1" 7]⟩,
         .ok (fromDbFormat
            (rowOfInsert (toDbFormat (mkNewPatient ⟨"Ann", none⟩ 7 "2024-01-01")) "u1" 7))) ∧
    getPatientById_db
        ⟨[rowOfInsert (toDbFormat (mkNewPatient ⟨"Ann", none⟩ 7 "2024-01-01")) "u1" 7]⟩
        (fromDbFormat
          (rowOfInsert (toDbFormat (mkNewPatient ⟨"Ann", none⟩ 7 "2024-01-01")) "u1" 7)).id
      = .ok (fromDbFormat
          (rowOfInsert (toDbFormat (mkNewPatient ⟨"Ann", none⟩ 7 "2024-01-01")) "u1" 7)) := by
  have h := C2_create_then_get [] ⟨[]⟩ ⟨"Ann", none⟩ 7 "2024-01-01" "u1"
  have hdb := h.2.2 rfl
  exact ⟨h.2.1, hdb.1, hdb.2⟩

/-- C4: deleting an identifier absent from the store fails with the 404
`Patient not found` error in both modes and leaves the stored patients
unchanged. -/
theorem C4_delete_missing (mem : List (String × Patient)) (db : DbState) (id : String) :
    (mapGet mem id = none →
      deletePatient_mem mem id
        = (mem, .error (.service (createError "Patient not found" 404)))) ∧
    (rowsFor db id = [] →
      deletePatient_db db id
        = (db, .error (.service (createError "Patient not found" 404)))) := by
  constructor
  · intro h
    simp [deletePatient_mem, mapDelete_of_get_none mem id h]
  · intro h
    obtain ⟨rows⟩ := db
    have hall : ∀ r ∈ rows, ¬ (r.patient_id = id) := by
      simpa [rowsFor] using List.filter_eq_nil_iff.mp h
    simp only [rowsFor] at h
    simp [deletePatient_db, dbDelete, rowsFor, h, singleOf, deletePatient_dbResp]
    exact hall

/-- C4 witness: deleting from the empty store in both modes. -/
theorem C4_delete_missing_witness :
    deletePatient_mem [] "x"
      = ([], .error (.service (createError "Patient not found" 404))) ∧
    deletePatient_db ⟨[]⟩ "x"
      = (⟨[]⟩, .error (.service (createError "Patient not found" 404))) :=
  ⟨(C4_delete_missing [] ⟨[]⟩ "x").1 rfl, (C4_delete_missing [] ⟨[]⟩ "x").2 rfl⟩

/-- A concrete stored patient used to exhibit the `updatedAt` refresh. -/
def c3Patient : Patient :=
  { id := "p1", name := "Ann", history := "h", date := "2024-01-01", index := "7",
    biopsyConfirmed := some false, doctor := some "Doc", createdAt := 0, updatedAt := 0 }

/-- C3 counterexample: an update whose payload contains neither `name` nor
`medicalHistory` still changes the stored patient's `updatedAt` (here from
0 to the update instant 1), so `updatedAt` is not preserved as claimed. -/
theorem C3_counterexample :
    c3Patient.updatedAt = 0 ∧
    (updatePatient_mem [("p1", c3Patient)] ⟨"p1", none, none⟩ 1).2
      = .ok { c3Patient with updatedAt := 1 } ∧
    mapGet (updatePatient_mem [("p1", c3Patient)] ⟨"p1", none, none⟩ 1).1 "p1"
      = some { c3Patient with updatedAt := 1 } ∧
    ({ c3Patient with updatedAt := 1 } : Patient).updatedAt ≠ c3Patient.updatedAt :=
  ⟨rfl, rfl, rfl, by decide⟩

/-- C3 amended: an update changes only `name`, `history` and `updatedAt`:
`id`, `date`, `index`, `biopsyConfirmed`/`biopsy_confirmed`,
`doctor`, `createdAt`/`created_at` (and the row UUID) keep their values in
both modes, while `updatedAt`/`updated_at` is set to the update instant. -/
theorem C3_amended_update_frame
    (mem : List (String × Patient)) (upd : UpdatePatientRequest) (now : Nat)
    (p q : Patient) (db : DbState) (r : PatientRow) :
    (mapGet mem upd.id = some p →
      (updatePatient_mem mem upd now).2 = .ok q →
      mapGet (updatePatient_mem mem upd now).1 upd.id = some q ∧
      q.id = p.id ∧ q.date = p.date ∧ q.index = p.index ∧
      q.biopsyConfirmed = p.biopsyConfirmed ∧ q.doctor = p.doctor ∧
      q.createdAt = p.createdAt ∧ q.updatedAt = now) ∧
    (rowsFor db upd.id = [r] →
      (updatePatient_db db upd now).2
        = .ok (fromDbFormat (applyUpdate r (mkUpdatePayload upd) now)) ∧
      rowsFor (updatePatient_db db upd now).1 upd.id
        = [applyUpdate r (mkUpdatePayload upd) now] ∧
      (applyUpdate r (mkUpdatePayload upd) now).rid = r.rid ∧
      (applyUpdate r (mkUpdatePayload upd) now).patient_id = r.patient_id ∧
      (applyUpdate r (mkUpdatePayload upd) now).date = r.date ∧
      (applyUpdate r (mkUpdatePayload upd) now).index = r.index ∧
      (applyUpdate r (mkUpdatePayload upd) now).biopsy_confirmed = r.biopsy_confirmed ∧
      (applyUpdate r (mkUpdatePayload upd) now).doctor = r.doctor ∧
      (applyUpdate r (mkUpdatePayload upd) now).created_at = r.created_at ∧
      (applyUpdate r (mkUpdatePayload upd) now).updated_at = now) := by
  constructor
  · intro h1 h2
    simp only [updatePatient_mem, h1] at h2 ⊢
    have hq : q = { p with
        name := jsOrStr upd.name p.name
        history := jsOrStr (upd.medicalHistory.map (String.intercalate ", ")) p.history
        updatedAt := now } := by
      simpa using h2.symm
    subst hq
    exact ⟨mapGet_mapSet_self .., rfl, rfl, rfl, rfl, rfl, rfl, rfl⟩
  · intro h
    refine ⟨?_, ?_, rfl, rfl, rfl, rfl, rfl, rfl, rfl, rfl⟩
    · simp [updatePatient_db, dbUpdate, h, singleOf, updatePatient_dbResp]
    · simp only [updatePatient_db, dbUpdate, rowsFor]
      rw [rowsFor_dbUpdate]
      simp only [rowsFor] at h
      rw [h]
      rfl

/-- A concrete stored row used to instantiate the database half of the
update frame property. -/
def c3Row : PatientRow :=
  { rid := "uuid-1", patient_id := "p1", name := "Ann", history := "h",
    date := "2024-01-01", index := "7", biopsy_confirmed := some true,
    doctor := some "Doc", created_at := 3, updated_at := 4 }

/-- C3 amended, witness: a concrete name-only update in both modes. -/
theorem C3_amended_update_frame_witness :
    (mapGet (updatePatient_mem [("p1", c3Patient)] ⟨"p1", some "Bea", none⟩ 9).1 "p1"
      = some { c3Patient with name := "Bea", updatedAt := 9 } ∧
     ({ c3Patient with name := "Bea", updatedAt := 9 } : Patient).date = c3Patient.date) ∧
    ((updatePatient_db ⟨[c3Row]⟩ ⟨"p1", some "Bea", none⟩ 9).2
      = .ok (fromDbFormat (applyUpdate c3Row (mkUpdatePayload ⟨"p1", some "Bea", none⟩) 9)) ∧
     (applyUpdate c3Row (mkUpdatePayload ⟨"p1", some "Bea", none⟩) 9).created_at
      = c3Row.created_at) := by
  have h := C3_amended_update_frame [("p1", c3Patient)] ⟨"p1", some "Bea", none⟩ 9
    c3Patient { c3Patient with name := "Bea", updatedAt := 9 } ⟨[c3Row]⟩ c3Row
  have hmem := h.1 rfl rfl
  have hdb := h.2 rfl
  exact ⟨⟨hmem.1, hmem.2.2.1⟩, hdb.1, hdb.2.2.2.2.2.2.2.2.1⟩

/-- An INSERT attempt against `diagnoses`: rejected with a check-violation
error, leaving the table unchanged, unless the row passes the checks. -/
def diagInsert (db : List DiagnosisRow) (r : DiagnosisRow) :
    List DiagnosisRow × Option DbError :=
  if diagChecksOk r then (r :: db, none)
  else (db, some ⟨"23514", "new row for relation diagnoses violates check constraint"⟩)

/-- Unfolding of a passed check constraint on one optional score. -/
theorem optInUnit_spec (x : Option ℚ) (h : optInUnit x = true) :
    ∀ q, x = some q → 0 ≤ q ∧ q ≤ 1 := by
  intro q hq
  subst hq
  simpa [optInUnit] using h

/-- Unfolding of the full check-constraint conjunction. -/
theorem diagChecksOk_spec (r : DiagnosisRow) (h : diagChecksOk r = true) :
    (0 ≤ r.confidence ∧ r.confidence ≤ 1) ∧
    (∀ q, r.olp_score = some q → 0 ≤ q ∧ q ≤ 1) ∧
    (∀ q, r.olk_score = some q → 0 ≤ q ∧ q ≤ 1) ∧
    (∀ q, r.ooml_score = some q → 0 ≤ q ∧ q ≤ 1) ∧
    (∀ q, r.opmd_score = some q → 0 ≤ q ∧ q ≤ 1) := by
  simp only [diagChecksOk, Bool.and_eq_true, decide_eq_true_eq] at h
  exact ⟨⟨h.1.1.1.1.1, h.1.1.1.1.2⟩,
    optInUnit_spec _ h.1.1.1.2, optInUnit_spec _ h.1.1.2,
    optInUnit_spec _ h.1.2, optInUnit_spec _ h.2⟩

/-- C5: every diagnosis row in a table state reachable through accepted
writes has `confidence` in `[0,1]` and each named score, when present, in
`[0,1]`; and an INSERT attempt whose values fail the checks is rejected by
the check constraints with the table unchanged. -/
theorem C5_diagnosis_scores_in_unit_interval
    (db : List DiagnosisRow) (hdb : DiagReachable db) :
    (∀ r ∈ db,
      (0 ≤ r.confidence ∧ r.confidence ≤ 1) ∧
      (∀ q, r.olp_score = some q → 0 ≤ q ∧ q ≤ 1) ∧
      (∀ q, r.olk_score = some q → 0 ≤ q ∧ q ≤ 1) ∧
      (∀ q, r.ooml_score = some q → 0 ≤ q ∧ q ≤ 1) ∧
      (∀ q, r.opmd_score = some q → 0 ≤ q ∧ q ≤ 1)) ∧
    (∀ r', diagChecksOk r' = false →
      diagInsert db r'
        = (db, some ⟨"23514",
            "new row for relation diagnoses violates check constraint"⟩)) := by
  constructor
  · induction hdb with
    | empty => intro r hr; simp at hr
    | step hprev hstep ih =>
      intro r hr
      cases hstep with
      | insert db' rnew hok =>
        rcases List.mem_cons.mp hr with h | h
        · subst h; exact diagChecksOk_spec _ hok
        · exact ih r h
      | update l rest old new hok =>
        rcases List.mem_append.mp hr with h | h
        · exact ih r (List.mem_append.mpr (.inl h))
        · rcases List.mem_cons.mp h with h' | h'
          · subst h'; exact diagChecksOk_spec _ hok
          · exact ih r (List.mem_append.mpr (.inr (List.mem_cons.mpr (.inr h'))))
      | delete l rest old =>
        rcases List.mem_append.mp hr with h | h
        · exact ih r (List.mem_append.mpr (.inl h))
        · exact ih r (List.mem_append.mpr (.inr (List.mem_cons.mpr (.inr h))))
  · intro r' hbad
    simp [diagInsert, hbad]

/-- A representative in-range diagnosis row. -/
def sampleDiag : DiagnosisRow :=
  { rid := "d1", patient_id := "p1", dtype := .oral, image_url := "u",
    confidence := 1, finding := "f", recommendation := "rec", severity := some .low,
    report_recommendation := none, status_code := some "OPMD_SUSPECTED",
    olp_score := some 0, olk_score := some 1, ooml_score := none,
    opmd_score := some 1, knowledge := none, annotated_image_url := none,
    detections := none, created_at := 0, updated_at := 0 }

/-- A diagnosis row with an out-of-range confidence. -/
def badDiag : DiagnosisRow :=
  { sampleDiag with rid := "d2", confidence := 2 }

/-- C5 witness: a concrete reachable one-row table, and the rejection of a
concrete out-of-range insert against it. -/
theorem C5_diagnosis_scores_witness :
    (0 ≤ sampleDiag.confidence ∧ sampleDiag.confidence ≤ 1) ∧
    diagInsert [sampleDiag] badDiag
      = ([sampleDiag], some ⟨"23514",
          "new row for relation diagnoses violates check constraint"⟩) := by
  have hreach : DiagReachable [sampleDiag] :=
    .step .empty (.insert [] sampleDiag (by decide))
  have h := C5_diagnosis_scores_in_unit_interval [sampleDiag] hreach
  exact ⟨(h.1 sampleDiag (List.mem_singleton.mpr rfl)).1, h.2 badDiag (by decide)⟩

/-- C7: for a staged file whose bytes are on local disk, `processImage`
uploads exactly those bytes under the staged filename and returns the
staged filename, its uploads-directory path, the file's size and the
public URL of the uploaded object. -/
theorem C7_processImage_uploads_staged_bytes
    (fs : LocalFS) (storage : StorageState) (file : MulterFile) (bytes : List Nat)
    (h : fsRead fs (uploadsPath file.filename) = some bytes) :
    processImage fs storage file none
      = (⟨assocSet storage.objects file.filename bytes, storage.removeRequests⟩,
         .ok ⟨file.filename, publicUrl file.filename, uploadsPath file.filename,
              file.size⟩) ∧
    assocGet (assocSet storage.objects file.filename bytes) file.filename
      = some bytes := by
  refine ⟨?_, assocGet_assocSet_self ..⟩
  simp [processImage, h, uploadToSupabase]

/-- C7 witness: a concrete staged file processed against an empty bucket. -/
theorem C7_processImage_witness :
    processImage ⟨[("uploads/a.png", [1, 2, 3])]⟩ ⟨[], []⟩ ⟨"a.png", 3⟩ none
      = (⟨[("a.png", [1, 2, 3])], []⟩,
         .ok ⟨"a.png", publicUrl "a.png", uploadsPath "a.png", 3⟩) ∧
    assocGet [("a.png", [1, 2, 3])] "a.png" = some [1, 2, 3] :=
  C7_processImage_uploads_staged_bytes
    ⟨[("uploads/a.png", [1, 2, 3])]⟩ ⟨[], []⟩ ⟨"a.png", 3⟩ [1, 2, 3] rfl

/-- Stripping a literal lead succeeds exactly on strings that extend it. -/
theorem stripLead_eq_some (p : List Char) :
    ∀ cs r, stripLead p cs = some r ↔ cs = p ++ r := by
  induction p with
  | nil => intro cs r; simp [stripLead, eq_comm]
  | cons a ps ih =>
    intro cs r
    cases cs with
    | nil => simp [stripLead]
    | cons c cs' =>
      by_cases hc : c = a
      · subst hc; simp [stripLead, ih]
      · simp [stripLead, hc]

/-- `takeWhile`/`dropWhile` split a run of satisfying characters exactly at
the first failing one. -/
theorem takeWhile_append_stop (pr : Char → Bool) (l : List Char) (x : Char)
    (rest : List Char) (h : ∀ c ∈ l, pr c = true) (hx : pr x = false) :
    (l ++ x :: rest).takeWhile pr = l ∧ (l ++ x :: rest).dropWhile pr = x :: rest := by
  induction l with
  | nil => simp [List.takeWhile_cons, List.dropWhile_cons, hx]
  | cons a tl ih =>
    have ha : pr a = true := h a (by simp)
    have htl := ih (fun c hc => h c (by simp [hc]))
    simp [List.takeWhile_cons, List.dropWhile_cons, ha, htl.1, htl.2]

/-- Declarative reading of the regex
`/^data:image\/([a-zA-Z]+);base64,(.+)$/`: it matches with captures
`(ext, payload)` exactly when the input is literally
`data:image/<ext>;base64,<payload>` with `ext` a nonempty run of ASCII
letters and `payload` nonempty and free of line terminators. -/
theorem matchDataUrl_some_iff (s ext payload : String) :
    matchDataUrl s = some (ext, payload) ↔
      (s.data = "data:image/".data ++ ext.data ++ ";base64,".data ++ payload.data ∧
       ext.data ≠ [] ∧ (∀ c ∈ ext.data, isAsciiLetter c = true) ∧
       payload.data ≠ [] ∧ (∀ c ∈ payload.data, isLineTerm c = false)) := by
  constructor
  · intro h
    unfold matchDataUrl at h
    cases hs : stripLead "data:image/".data s.data with
    | none => rw [hs] at h; simp at h
    | some rest =>
      rw [hs] at h
      simp only [] at h
      by_cases hext : rest.takeWhile isAsciiLetter = []
      · simp [hext] at h
      · rw [if_neg hext] at h
        cases hb : stripLead ";base64,".data (rest.dropWhile isAsciiLetter) with
        | none => rw [hb] at h; simp at h
        | some payloadChars =>
          rw [hb] at h
          simp only [] at h
          by_cases hpe : payloadChars = []
          · simp [hpe] at h
          · rw [if_neg hpe] at h
            by_cases hlt : payloadChars.any isLineTerm = true
            · simp [hlt] at h
            · rw [if_neg hlt] at h
              have hpair := Option.some.inj h
              have hext_eq : ext.data = rest.takeWhile isAsciiLetter := by
                have := congrArg Prod.fst hpair
                simpa using congrArg String.data this.symm
              have hpay_eq : payload.data = payloadChars := by
                have := congrArg Prod.snd hpair
                simpa using congrArg String.data this.symm
              refine ⟨?_, ?_, ?_, ?_, ?_⟩
              · have h1 : s.data = "data:image/".data ++ rest :=
                  (stripLead_eq_some _ _ _).mp hs
                have h2 : rest.dropWhile isAsciiLetter
                    = ";base64,".data ++ payloadChars :=
                  (stripLead_eq_some _ _ _).mp hb
                have h3 : rest.takeWhile isAsciiLetter
                      ++ rest.dropWhile isAsciiLetter = rest :=
                  List.takeWhile_append_dropWhile ..
                rw [h1, ← h3, h2, hext_eq, hpay_eq]
                simp
              · rw [hext_eq]; exact hext
              · intro c hc
                rw [hext_eq] at hc
                exact List.mem_takeWhile_imp hc
              · rw [hpay_eq]; exact hpe
              · intro c hc
                rw [hpay_eq] at hc
                exact eq_false_of_ne_true
                  (List.any_eq_false.mp (eq_false_of_ne_true hlt) c hc)
  · rintro ⟨hs, hne, hall, hpne, hplt⟩
    have hsemi : isAsciiLetter ';' = false := rfl
    have hB : (";base64,".data : List Char)
        = ';' :: "base64,".data := rfl
    have hsplit := takeWhile_append_stop isAsciiLetter ext.data ';'
      ("base64,".data ++ payload.data) hall hsemi
    have hrest : stripLead "data:image/".data s.data
        = some (ext.data ++ ";base64,".data ++ payload.data) := by
      rw [stripLead_eq_some, hs]
      simp
    have harr : ext.data ++ ";base64,".data ++ payload.data
        = ext.data ++ ';' :: ("base64,".data ++ payload.data) := by
      rw [hB]; simp
    have hb2 : stripLead ";base64,".data (';' :: ("base64,".data ++ payload.data))
        = some payload.data := by
      rw [stripLead_eq_some, hB]
      simp
    have hnoterm : payload.data.any isLineTerm = false :=
      List.any_eq_false.mpr (fun x hx => by simp [hplt x hx])
    unfold matchDataUrl
    rw [hrest, harr]
    simp only []
    rw [if_neg (by rw [hsplit.1]; exact hne), hsplit.2, hb2]
    simp only []
    rw [if_neg hpne, if_neg (by simp [hnoterm]), hsplit.1]

/-- C8: `saveBase64Image` fails for every input that does not match the
data-URL pattern `data:image/<letters>;base64,<payload>` (characterised
declaratively by `matchDataUrl_some_iff` restated in the first conjunct);
for a matching input it decodes the base64 payload, writes the decoded
bytes under the generated `seg_<now>_<rnd>.<ext>` name (`jpeg` mapped to
`jpg`), uploads the same bytes to the bucket, and returns a result whose
`size` is the decoded byte length. -/
theorem C8_saveBase64Image (fs : LocalFS) (storage : StorageState)
    (s : String) (now : Nat) (rnd ext payload : String) :
    (matchDataUrl s = some (ext, payload) ↔
      (s.data = "data:image/".data ++ ext.data ++ ";base64,".data ++ payload.data ∧
       ext.data ≠ [] ∧ (∀ c ∈ ext.data, isAsciiLetter c = true) ∧
       payload.data ≠ [] ∧ (∀ c ∈ payload.data, isLineTerm c = false))) ∧
    (matchDataUrl s = none →
      saveBase64Image fs storage s now rnd none
        = (fs, storage, .error ⟨"Failed to save base64 image"⟩)) ∧
    (matchDataUrl s = some (ext, payload) →
      saveBase64Image fs storage s now rnd none
        = (fsWrite fs (uploadsPath (segFilename now rnd ext)) (b64decode payload),
           ⟨assocSet storage.objects (segFilename now rnd ext) (b64decode payload),
            storage.removeRequests⟩,
           .ok ⟨segFilename now rnd ext, publicUrl (segFilename now rnd ext),
                uploadsPath (segFilename now rnd ext),
                (b64decode payload).length⟩)) := by
  refine ⟨matchDataUrl_some_iff s ext payload, ?_, ?_⟩
  · intro h
    simp [saveBase64Image, h]
  · intro h
    simp [saveBase64Image, h, uploadToSupabase]

/-- C8 witness: a non-matching input fails; a concrete matching JPEG
data URL is decoded, written and uploaded (`QUJD` decodes to 3 bytes). -/
theorem C8_saveBase64Image_witness :
    saveBase64Image ⟨[]⟩ ⟨[], []⟩ "nope" 1 "r" none
      = (⟨[]⟩, ⟨[], []⟩, .error ⟨"Failed to save base64 image"⟩) ∧
    saveBase64Image ⟨[]⟩ ⟨[], []⟩ "data:image/jpeg;base64,QUJD" 1 "r" none
      = (fsWrite ⟨[]⟩ (uploadsPath (segFilename 1 "r" "jpeg")) (b64decode "QUJD"),
         ⟨assocSet [] (segFilename 1 "r" "jpeg") (b64decode "QUJD"), []⟩,
         .ok ⟨segFilename 1 "r" "jpeg", publicUrl (segFilename 1 "r" "jpeg"),
              uploadsPath (segFilename 1 "r" "jpeg"), (b64decode "QUJD").length⟩) := by
  have h₁ := (C8_saveBase64Image ⟨[]⟩ ⟨[], []⟩ "nope" 1 "r" "x" "y").2.1
  have h₂ := (C8_saveBase64Image ⟨[]⟩ ⟨[], []⟩ "data:image/jpeg;base64,QUJD"
    1 "r" "jpeg" "QUJD").2.2
  exact ⟨h₁ rfl, h₂ rfl⟩

end MedApp
